import Mathlib

/-!
Verification development for the inven-bill-suite back-office core:
the document-number sequence generator, the stock ledger, the document
aggregator (line totals and item replacement on update), and the
customer rollup trigger.  Each definition is a shallow embedding of the
corresponding SQL function or TypeScript hook; fallible storage calls
are modelled by explicit success flags, and each operation returns its
success status together with the resulting store contents.
-/

namespace InvenBill

/-! ## Sequence generator

Embeds `generate_invoice_number`, `generate_order_number`,
`generate_payment_number` (migration in `unnamed/part_000`) and
`generate_po_number` (migration `20250731125057`).  Each scans the
persisted identifiers of its family, keeps the ones matching
`^PREFIX-digits$`, takes the maximum numeric suffix (0 when none),
adds one and renders it with `PREFIX || LPAD(n::TEXT, width, '0')`.
Postgres `LPAD` truncates on the right when the string is already
longer than the requested length, which the embedding reproduces. -/

/-- Numeric value named by a list of decimal digit characters
(the `CAST(... AS INTEGER)` step of the SQL functions). -/
def decValue (cs : List Char) : Nat :=
  cs.foldl (fun a c => 10 * a + (c.toNat - 48)) 0

/-- Does `s` match the family pattern `^pfx<digits>$`?  This is the
`WHERE ... ~ '^INV-[0-9]+$'` filter of the SQL functions. -/
def matchesFamily (pfx s : String) : Bool :=
  decide (s.data.take pfx.data.length = pfx.data)
    && !(s.data.drop pfx.data.length).isEmpty
    && (s.data.drop pfx.data.length).all Char.isDigit

/-- Numeric suffix of an identifier that matches its family pattern
(`SUBSTRING(... FROM 5)` resp. the `'PO-(\d+)'` capture, cast to a
number); `none` for non-conforming identifiers. -/
def familySuffix? (pfx s : String) : Option Nat :=
  if matchesFamily pfx s then some (decValue (s.data.drop pfx.data.length))
  else none

/-- The `COALESCE(MAX(...), 0)` aggregate over the identifiers of a
family that match the pattern. -/
def maxFamilySuffix (pfx : String) (existing : List String) : Nat :=
  (existing.filterMap (familySuffix? pfx)).foldl max 0

/-- Postgres `LPAD(cs, w, fill)`: pad on the left up to length `w`,
truncating on the right when `cs` is already longer than `w`. -/
def lpadChars (cs : List Char) (w : Nat) (fill : Char) : List Char :=
  if w ≤ cs.length then cs.take w
  else List.replicate (w - cs.length) fill ++ cs

/-- Shared body of the four generator functions:
`PREFIX || LPAD((max+1)::TEXT, width, '0')`. -/
def nextSeqNumber (pfx : String) (width : Nat) (existing : List String) : String :=
  let next := maxFamilySuffix pfx existing + 1
  pfx ++ String.mk (lpadChars (Nat.toDigits 10 next) width '0')

/-- SQL `generate_invoice_number()` over the stored invoice numbers. -/
def generate_invoice_number (invoices : List String) : String :=
  nextSeqNumber "INV-" 3 invoices

/-- SQL `generate_order_number()` over the stored sales-order numbers. -/
def generate_order_number (orders : List String) : String :=
  nextSeqNumber "ORD-" 3 orders

/-- SQL `generate_payment_number()` over the stored payment numbers. -/
def generate_payment_number (payments : List String) : String :=
  nextSeqNumber "PAY-" 3 payments

/-- SQL `generate_po_number()` over the stored purchase-order numbers. -/
def generate_po_number (pos : List String) : String :=
  nextSeqNumber "PO-" 6 pos

/-- Modelled from the spec: zero-padding to width `w` in the sense of
§4.1 and §6 (`P-<m+1 zero-padded to W>`) extends short digit strings on
the left with zeros and leaves longer strings intact; unlike `LPAD`, it
never truncates. -/
def zeroPadTo (cs : List Char) (w : Nat) : List Char :=
  if cs.length < w then List.replicate (w - cs.length) '0' ++ cs else cs

/-- Modelled from the spec: the identifier §4.1 says the generator
returns, namely `P-<m+1 zero-padded to W>` with `m` the maximal
conforming numeric suffix (0 when none exists). -/
def specNextSeqNumber (pfx : String) (width : Nat) (existing : List String) : String :=
  pfx ++ String.mk (zeroPadTo (Nat.toDigits 10 (maxFamilySuffix pfx existing + 1)) width)

/-- Generating a batch: `n` sequential allocations, persisting each
identifier into the store before computing the next one. -/
def generateBatch (pfx : String) (width : Nat) : Nat → List String → List String
  | 0, _ => []
  | n + 1, store =>
    let id0 := nextSeqNumber pfx width store
    id0 :: generateBatch pfx width n (store ++ [id0])

/-- On conforming stores below the width limit the generator behaves as
specified: with invoices 001 and 003 present and one malformed legacy
identifier, the next number is INV-004. -/
theorem invoice_number_example :
    generate_invoice_number ["INV-001", "INV-003", "INV-BAD"] = "INV-004" := by
  decide

/-- An empty store yields the first identifier of the family, 1 padded
to the family width. -/
theorem po_number_empty_store :
    generate_po_number [] = "PO-000001" := by
  decide

/-- C1: the generator is claimed to return `P-<m+1 zero-padded to W>`
with `m` the maximal conforming suffix.  At the store {INV-999} the
claim demands INV-1000, but `LPAD` truncates the four digits of 1000 to
three, so the code returns INV-100 — a previously issuable identifier,
contradicting the spec's "a given number is never reissued" and the
schema's UNIQUE constraint on `invoice_number`. -/
theorem generate_invoice_number_truncates_at_1000 :
    generate_invoice_number ["INV-999"] = "INV-100"
      ∧ specNextSeqNumber "INV-" 3 ["INV-999"] = "INV-1000"
      ∧ generate_po_number ["PO-999999"] = "PO-100000"
      ∧ specNextSeqNumber "PO-" 6 ["PO-999999"] = "PO-1000000" := by
  constructor
  · decide
  constructor
  · decide
  constructor
  · decide
  · decide

/-- C2: sequential generation with persistence is claimed to yield
pairwise-distinct identifiers with strictly increasing suffixes for
every starting store.  Starting from {INV-999}, two sequential
allocations both yield INV-100 (the max conforming suffix stays 999, and
`LPAD` truncates 1000 to 100), so the identifiers are neither distinct
nor increasing. -/
theorem generateBatch_duplicates_after_999 :
    generateBatch "INV-" 3 2 ["INV-999"] = ["INV-100", "INV-100"]
      ∧ ¬ (generateBatch "INV-" 3 2 ["INV-999"]).Nodup := by
  constructor
  · decide
  · decide

/-! ## Stock ledger

Embeds `createStockMovement`, `createStockAdjustment`,
`updateStockMovement` and `deleteStockMovement` from
`src/hooks/useStockMovements.ts`.  The inventory store holds the
`products` and `stock_movements` tables; every storage round trip may
fail for infrastructure reasons, which is modelled by a success flag per
primitive call.  Operations return their reported success (`false`
corresponds to the hook throwing) together with the store contents left
behind, so that partial failures stay observable. -/

/-- Movement type enum of the `stock_movements` table. -/
inductive MovementType where
  | purchase
  | sale
  | adjustment
  | ret
  | transfer
deriving Repr, DecidableEq

/-- Row of the `products` table (fields irrelevant to the ledger claims
are omitted); `stock` is the mutable on-hand quantity. -/
structure ProductRow where
  id : String
  name : String
  sku : Option String
  stock : Int
deriving Repr, DecidableEq

/-- The `StockMovement` payload/row of `useStockMovements.ts` (the
`created_by`/`created_at` bookkeeping columns are omitted). -/
structure StockMovementRow where
  id : String
  product_id : String
  product_name : String
  product_sku : Option String
  movement_type : MovementType
  quantity_change : Int
  stock_before : Int
  stock_after : Int
  reason : Option String
  reference_id : Option String := none
  reference_type : Option String := none
  movement_date : String
deriving Repr, DecidableEq

/-- The tables the stock ledger touches. -/
structure InventoryDb where
  products : List ProductRow
  stock_movements : List StockMovementRow
deriving Repr, DecidableEq

/-- Stock of the product with the given id, if present
(`SELECT stock FROM products WHERE id = pid`). -/
def getStock? (db : InventoryDb) (pid : String) : Option Int :=
  (db.products.find? (fun p => decide (p.id = pid))).map (fun p => p.stock)

/-- The `UPDATE products SET stock = newStock WHERE id = pid` call
issued by `createStockMovement`. -/
def setProductStock (pid : String) (newStock : Int) (db : InventoryDb) : InventoryDb :=
  { db with
    products := db.products.map fun p =>
      if p.id = pid then { p with stock := newStock } else p }

/-- Hook `createStockMovement`: insert the movement row, then update the
product's stock to the payload's `stock_after`.  `insertOk` and
`updateOk` model the two storage calls succeeding; a `false` result
corresponds to the hook throwing. -/
def createStockMovement (insertOk updateOk : Bool) (m : StockMovementRow)
    (db : InventoryDb) : Bool × InventoryDb :=
  if !insertOk then (false, db)
  else
    let db1 : InventoryDb := { db with stock_movements := db.stock_movements ++ [m] }
    if !updateOk then (false, db1)
    else (true, setProductStock m.product_id m.stock_after db1)

/-- Hook `createStockAdjustment`: builds an adjustment movement with
`quantity_change = newStock - currentStock`, `stock_before` the supplied
current stock and `stock_after` the desired new stock, then delegates to
`createStockMovement`.  `newId` stands for the row id the database
assigns on insert. -/
def createStockAdjustment (insertOk updateOk : Bool) (newId productId productName : String)
    (productSku : Option String) (currentStock newStock : Int) (reason : String)
    (date : String) (db : InventoryDb) : Bool × InventoryDb :=
  createStockMovement insertOk updateOk
    { id := newId
      product_id := productId
      product_name := productName
      product_sku := productSku
      movement_type := MovementType.adjustment
      quantity_change := newStock - currentStock
      stock_before := currentStock
      stock_after := newStock
      reason := some reason
      movement_date := date }
    db

/-- Hook `updateStockMovement`: a single `UPDATE stock_movements ... WHERE
id = mid` applying the caller's field patch; it never touches
`products`. -/
def updateStockMovement (ok : Bool) (mid : String)
    (patch : StockMovementRow → StockMovementRow) (db : InventoryDb) :
    Bool × InventoryDb :=
  if !ok then (false, db)
  else
    (true,
      { db with
        stock_movements := db.stock_movements.map fun m =>
          if m.id = mid then patch m else m })

/-- Hook `deleteStockMovement`: a single `DELETE FROM stock_movements
WHERE id = mid`; it never touches `products`. -/
def deleteStockMovement (ok : Bool) (mid : String) (db : InventoryDb) :
    Bool × InventoryDb :=
  if !ok then (false, db)
  else (true, { db with stock_movements := db.stock_movements.filter fun m => !decide (m.id = mid) })

/-- C4: a stock adjustment invoked with current stock `c` and desired
stock `n` appends exactly one movement, whose fields are
`quantity_change = n - c`, type adjustment, `stock_before = c`,
`stock_after = n` (hence `stock_after - stock_before = quantity_change`),
and on success the referenced product's stock equals that `stock_after`. -/
theorem createStockAdjustment_ledger_invariant
    (insertOk updateOk : Bool) (newId pid pname : String) (psku : Option String)
    (c n : Int) (reason date : String) (db : InventoryDb)
    (hcur : getStock? db pid = some c)
    (hok : (createStockAdjustment insertOk updateOk newId pid pname psku c n reason date db).1 = true) :
    ∃ m : StockMovementRow,
      (createStockAdjustment insertOk updateOk newId pid pname psku c n reason date db).2.stock_movements
          = db.stock_movements ++ [m]
        ∧ m.quantity_change = n - c
        ∧ m.movement_type = MovementType.adjustment
        ∧ m.stock_before = c
        ∧ m.stock_after = n
        ∧ m.stock_after - m.stock_before = m.quantity_change
        ∧ getStock? (createStockAdjustment insertOk updateOk newId pid pname psku c n reason date db).2 pid
            = some m.stock_after := by
  cases insertOk with
  | false => simp [createStockAdjustment, createStockMovement] at hok
  | true =>
    cases updateOk with
    | false => simp [createStockAdjustment, createStockMovement] at hok
    | true =>
      refine ⟨⟨newId, pid, pname, psku, MovementType.adjustment, n - c, c, n,
          some reason, none, none, date⟩, ?_, rfl, rfl, rfl, rfl, rfl, ?_⟩
      · simp [createStockAdjustment, createStockMovement, setProductStock]
      · have hx : ∃ p ∈ db.products, p.id = pid := by
          by_contra hnone
          push_neg at hnone
          have : db.products.find? (fun p => decide (p.id = pid)) = none := by
            apply List.find?_eq_none.mpr
            intro p hp
            simpa using hnone p hp
          simp [getStock?, this] at hcur
        simp only [createStockAdjustment, createStockMovement, Bool.not_true,
          Bool.false_eq_true, if_false, reduceIte]
        obtain ⟨p, hp, hpid⟩ := hx
        simp only [getStock?, setProductStock]
        rw [List.find?_map]
        have hfind : (db.products.find? (Function.comp (fun p => decide (p.id = pid))
            (fun p => if p.id = pid then { p with stock := n } else p))).isSome := by
          apply List.find?_isSome.mpr
          refine ⟨p, hp, ?_⟩
          simp [Function.comp, hpid]
        obtain ⟨q, hq⟩ := Option.isSome_iff_exists.mp hfind
        have hqmem := List.find?_some hq
        rw [hq]
        simp only [Function.comp] at hqmem
        by_cases hcase : q.id = pid
        · simp [hcase]
        · simp [hcase] at hqmem

/-- C4 witness: a store with one product at stock 50, adjusted to 35,
records quantity_change = -15 and leaves the product stock at 35. -/
theorem createStockAdjustment_ledger_invariant_witness :
    (getStock? ⟨[⟨"p1", "Widget", none, 50⟩], []⟩ "p1" = some 50
        ∧ (createStockAdjustment true true "m1" "p1" "Widget" none 50 35 "recount" "d"
            ⟨[⟨"p1", "Widget", none, 50⟩], []⟩).1 = true)
      ∧ ∃ m : StockMovementRow,
        (createStockAdjustment true true "m1" "p1" "Widget" none 50 35 "recount" "d"
            ⟨[⟨"p1", "Widget", none, 50⟩], []⟩).2.stock_movements
            = ([] : List StockMovementRow) ++ [m]
          ∧ m.quantity_change = 35 - 50
          ∧ m.movement_type = MovementType.adjustment
          ∧ m.stock_before = 50
          ∧ m.stock_after = 35
          ∧ m.stock_after - m.stock_before = m.quantity_change
          ∧ getStock? (createStockAdjustment true true "m1" "p1" "Widget" none 50 35 "recount" "d"
              ⟨[⟨"p1", "Widget", none, 50⟩], []⟩).2 "p1" = some m.stock_after :=
  ⟨⟨by decide, by decide⟩,
    createStockAdjustment_ledger_invariant true true "m1" "p1" "Widget" none 50 35 "recount" "d"
      ⟨[⟨"p1", "Widget", none, 50⟩], []⟩ (by decide) (by decide)⟩

/-- C6 counterexample: with one product at stock 50, a movement insert
that succeeds followed by a product-stock update that fails reports a
failure, yet leaves the movement persisted while the product's stock is
still 50 rather than the movement's `stock_after` 35 — the partial state
the claim says cannot be visible. -/
theorem createStockMovement_partial_state_visible :
    (createStockMovement true false
        ⟨"m1", "p1", "Widget", none, MovementType.adjustment, -15, 50, 35, some "recount",
          none, none, "d"⟩
        ⟨[⟨"p1", "Widget", none, 50⟩], []⟩).1 = false
      ∧ (createStockMovement true false
          ⟨"m1", "p1", "Widget", none, MovementType.adjustment, -15, 50, 35, some "recount",
            none, none, "d"⟩
          ⟨[⟨"p1", "Widget", none, 50⟩], []⟩).2.stock_movements
        = [⟨"m1", "p1", "Widget", none, MovementType.adjustment, -15, 50, 35, some "recount",
            none, none, "d"⟩]
      ∧ getStock? (createStockMovement true false
          ⟨"m1", "p1", "Widget", none, MovementType.adjustment, -15, 50, 35, some "recount",
            none, none, "d"⟩
          ⟨[⟨"p1", "Widget", none, 50⟩], []⟩).2 "p1" = some 50 := by
  refine ⟨by decide, by decide, by decide⟩

/-- C6 amended: the ledger write reports success exactly when both
storage steps succeed; a failed insert leaves the store unchanged, but
an insert that succeeds followed by a failed product-stock update
reports failure with the movement already persisted and the product
untouched — the operation is not atomic. -/
theorem createStockMovement_step_outcomes (m : StockMovementRow) (db : InventoryDb) :
    createStockMovement false false m db = (false, db)
      ∧ createStockMovement false true m db = (false, db)
      ∧ createStockMovement true false m db
          = (false, { db with stock_movements := db.stock_movements ++ [m] })
      ∧ createStockMovement true true m db
          = (true, setProductStock m.product_id m.stock_after
              { db with stock_movements := db.stock_movements ++ [m] }) := by
  refine ⟨rfl, rfl, rfl, rfl⟩

/-- C8: updating any fields of a stock movement, or deleting a stock
movement, leaves the `products` table — in particular every product's
stock — exactly as it was; only movement creation writes product
stock. -/
theorem movement_update_delete_leave_product_stock (ok : Bool) (mid : String)
    (patch : StockMovementRow → StockMovementRow) (db : InventoryDb) :
    (updateStockMovement ok mid patch db).2.products = db.products
      ∧ (deleteStockMovement ok mid db).2.products = db.products
      ∧ (∀ pid, getStock? (updateStockMovement ok mid patch db).2 pid = getStock? db pid)
      ∧ (∀ pid, getStock? (deleteStockMovement ok mid db).2 pid = getStock? db pid) := by
  cases ok <;>
    simp [updateStockMovement, deleteStockMovement, getStock?]

/-! ## Document aggregator: line totals

Embeds `calculateItemTotal` and `calculateTotals` as they appear in the
sales-order and purchase-order form components (the two are identical up
to the `total_price`/`total_cost` field name).  Monetary values are
modelled as rationals; the source uses binary floating point, on which
every example in the claims is exact. -/

/-- A line of the document form: quantity, unit price and the stored
line total. -/
structure OrderFormItem where
  quantity : ℚ
  unit_price : ℚ
  total_price : ℚ
deriving Repr, DecidableEq

/-- Component `calculateItemTotal`: the stored line total is
`quantity * unit_price`. -/
def calculateItemTotal (quantity unit_price : ℚ) : ℚ :=
  quantity * unit_price

/-- Form lines after `calculateItemTotal` has run on each raw
(quantity, unit price) pair, as the change handlers do. -/
def buildOrderItems (lines : List (ℚ × ℚ)) : List OrderFormItem :=
  lines.map fun l => ⟨l.1, l.2, calculateItemTotal l.1 l.2⟩

/-- Component `calculateTotals`: subtotal is the running sum of the
stored line totals, `taxAmount = subtotal * taxRate / 100`, and the
grand total is `subtotal + taxAmount`. -/
def calculateTotals (items : List OrderFormItem) (tax_rate : ℚ) : ℚ × ℚ × ℚ :=
  let subtotal := items.foldl (fun s i => s + i.total_price) 0
  let taxAmount := subtotal * tax_rate / 100
  (subtotal, taxAmount, subtotal + taxAmount)

/-- Running left sum of a projected field equals the sum of the
projections. -/
theorem foldl_add_map_sum (f : OrderFormItem → ℚ) (l : List OrderFormItem) (a : ℚ) :
    l.foldl (fun s i => s + f i) a = a + (l.map f).sum := by
  induction l generalizing a with
  | nil => simp
  | cons x xs ih => simp [ih, add_assoc]

/-- C3: every stored line total equals quantity × unit price, the
subtotal is the sum of the stored line totals, the tax amount is
subtotal × tax rate / 100, and the grand total is subtotal + tax
amount. -/
theorem document_totals_consistent (lines : List (ℚ × ℚ)) (rate : ℚ)
    (it : OrderFormItem) (hit : it ∈ buildOrderItems lines) :
    it.total_price = it.quantity * it.unit_price
      ∧ (calculateTotals (buildOrderItems lines) rate).1
          = ((buildOrderItems lines).map (fun i => i.total_price)).sum
      ∧ (calculateTotals (buildOrderItems lines) rate).2.1
          = (calculateTotals (buildOrderItems lines) rate).1 * rate / 100
      ∧ (calculateTotals (buildOrderItems lines) rate).2.2
          = (calculateTotals (buildOrderItems lines) rate).1
            + (calculateTotals (buildOrderItems lines) rate).2.1 := by
  refine ⟨?_, ?_, rfl, rfl⟩
  · obtain ⟨l, hl, rfl⟩ := List.mem_map.mp hit
    rfl
  · show (buildOrderItems lines).foldl (fun s i => s + i.total_price) 0 = _
    rw [foldl_add_map_sum]
    simp

/-- C3 witness: quantity 3 at unit price 12.50 stores 37.50; the lines
(2, 10.00) and (1, 5.00) give subtotal 25.00, tax amount 2.00 at rate 8,
and total 27.00. -/
theorem document_totals_consistent_witness :
    ((⟨2, 10, calculateItemTotal 2 10⟩ : OrderFormItem) ∈ buildOrderItems [(2, 10), (1, 5)])
      ∧ calculateItemTotal 3 (12.5 : ℚ) = 37.5
      ∧ (⟨2, 10, calculateItemTotal 2 10⟩ : OrderFormItem).total_price
          = (⟨2, 10, calculateItemTotal 2 10⟩ : OrderFormItem).quantity
            * (⟨2, 10, calculateItemTotal 2 10⟩ : OrderFormItem).unit_price
      ∧ (calculateTotals (buildOrderItems [(2, 10), (1, 5)]) 8).1 = 25
      ∧ (calculateTotals (buildOrderItems [(2, 10), (1, 5)]) 8).2.1 = 2
      ∧ (calculateTotals (buildOrderItems [(2, 10), (1, 5)]) 8).2.2 = 27 := by
  have h := document_totals_consistent [(2, 10), (1, 5)] 8
    ⟨2, 10, calculateItemTotal 2 10⟩ (by simp [buildOrderItems])
  refine ⟨by simp [buildOrderItems], ?_, h.1, ?_, ?_, ?_⟩
  · norm_num [calculateItemTotal]
  · norm_num [calculateTotals, buildOrderItems, calculateItemTotal, List.foldl]
  · norm_num [calculateTotals, buildOrderItems, calculateItemTotal, List.foldl]
  · norm_num [calculateTotals, buildOrderItems, calculateItemTotal, List.foldl]

/-! ## Document aggregator: item replacement on update

Embeds `updateInvoice` (`src/hooks/useInvoices.ts`), `updateSalesOrder`
(`unnamed/part_006`) and `updatePurchaseOrder` (`unnamed/part_007`).
Only the line-item table is modelled: the header `UPDATE` never touches
items and is represented by its success flag.  `updateInvoice` checks
the error of every storage call; the other two issue the
delete-existing-items call without inspecting its result, so a failed
delete is silent there. -/

/-- The line-item table of one document family: rows are
(parent document id, item payload). -/
structure OrdersDb (α : Type) where
  order_items : List (String × α)
deriving Repr, DecidableEq

/-- Items currently persisted for a given document. -/
def itemsForDoc {α : Type} (db : OrdersDb α) (id : String) : List α :=
  (db.order_items.filter fun r => decide (r.1 = id)).map Prod.snd

/-- Hook `updateInvoice`: update the header; when items are supplied,
delete the document's existing items (checking the error) and insert
the replacement set.  Omitted items leave the table untouched. -/
def updateInvoice {α : Type} (headerOk deleteOk insertOk : Bool) (id : String)
    (items : Option (List α)) (db : OrdersDb α) : Bool × OrdersDb α :=
  if !headerOk then (false, db)
  else
    match items with
    | none => (true, db)
    | some its =>
      if !deleteOk then (false, db)
      else
        let db1 : OrdersDb α := ⟨db.order_items.filter fun r => !decide (r.1 = id)⟩
        if !insertOk then (false, db1)
        else (true, ⟨db1.order_items ++ its.map fun b => (id, b)⟩)

/-- Hook `updateSalesOrder`: like `updateInvoice`, except the delete's
result is discarded (a failed delete leaves the old rows and is not
reported) and the insert only runs for a non-empty replacement list. -/
def updateSalesOrder {α : Type} (headerOk deleteOk insertOk : Bool) (id : String)
    (items : Option (List α)) (db : OrdersDb α) : Bool × OrdersDb α :=
  if !headerOk then (false, db)
  else
    match items with
    | none => (true, db)
    | some its =>
      let db1 : OrdersDb α :=
        if deleteOk then ⟨db.order_items.filter fun r => !decide (r.1 = id)⟩ else db
      if 0 < its.length then
        if !insertOk then (false, db1)
        else (true, ⟨db1.order_items ++ its.map fun b => (id, b)⟩)
      else (true, db1)

/-- Hook `updatePurchaseOrder`: same step structure as
`updateSalesOrder`, over the purchase-order items table. -/
def updatePurchaseOrder {α : Type} (headerOk deleteOk insertOk : Bool) (id : String)
    (items : Option (List α)) (db : OrdersDb α) : Bool × OrdersDb α :=
  if !headerOk then (false, db)
  else
    match items with
    | none => (true, db)
    | some its =>
      let db1 : OrdersDb α :=
        if deleteOk then ⟨db.order_items.filter fun r => !decide (r.1 = id)⟩ else db
      if 0 < its.length then
        if !insertOk then (false, db1)
        else (true, ⟨db1.order_items ++ its.map fun b => (id, b)⟩)
      else (true, db1)

/-- Appending freshly keyed rows extends a document's item list on the
right. -/
theorem itemsForDoc_append {α : Type} (l : List (String × α)) (id : String) (its : List α) :
    itemsForDoc ⟨l ++ its.map fun b => (id, b)⟩ id = itemsForDoc ⟨l⟩ id ++ its := by
  unfold itemsForDoc
  rw [List.filter_append, List.map_append]
  congr 1
  have h : (its.map fun b => (id, b)).filter (fun r => decide (r.1 = id))
      = its.map fun b => (id, b) := by
    apply List.filter_eq_self.mpr
    intro a ha
    obtain ⟨b, hb, rfl⟩ := List.mem_map.mp ha
    simp
  rw [h, List.map_map]
  simp

/-- Deleting a document's rows and inserting a fresh keyed set leaves
exactly the fresh set as that document's items. -/
theorem itemsForDoc_replace {α : Type} (l : List (String × α)) (id : String) (its : List α) :
    itemsForDoc ⟨(l.filter fun r => !decide (r.1 = id)) ++ its.map fun b => (id, b)⟩ id
      = its := by
  rw [itemsForDoc_append]
  have h : itemsForDoc ⟨l.filter fun r => !decide (r.1 = id)⟩ id = ([] : List α) := by
    unfold itemsForDoc
    rw [List.filter_filter]
    simp
  rw [h]
  simp

/-- C7 counterexample: a purchase-order update supplying 2 items over a
prior set of 5 completes as a success even though the (silently failed)
delete left all 5 prior items in place, so 7 items are persisted rather
than exactly 2. -/
theorem updatePurchaseOrder_keeps_prior_items :
    (updatePurchaseOrder true false true "D" (some ["n1", "n2"])
        (⟨[("D", "o1"), ("D", "o2"), ("D", "o3"), ("D", "o4"), ("D", "o5")]⟩ : OrdersDb String)).1
        = true
      ∧ (itemsForDoc (updatePurchaseOrder true false true "D" (some ["n1", "n2"])
          (⟨[("D", "o1"), ("D", "o2"), ("D", "o3"), ("D", "o4"), ("D", "o5")]⟩ : OrdersDb String)).2
          "D").length = 7 := by
  refine ⟨by decide, by decide⟩

/-- C7 amended: a successful invoice update supplying an item list
always leaves exactly that list persisted for the document; for sales
orders and purchase orders the same holds provided the
delete-existing-items step succeeded, its result being unchecked. -/
theorem update_replaces_items {α : Type} (headerOk deleteOk insertOk : Bool)
    (id : String) (its : List α) (db : OrdersDb α) :
    ((updateInvoice headerOk deleteOk insertOk id (some its) db).1 = true →
        itemsForDoc (updateInvoice headerOk deleteOk insertOk id (some its) db).2 id = its)
      ∧ ((updateSalesOrder headerOk true insertOk id (some its) db).1 = true →
        itemsForDoc (updateSalesOrder headerOk true insertOk id (some its) db).2 id = its)
      ∧ ((updatePurchaseOrder headerOk true insertOk id (some its) db).1 = true →
        itemsForDoc (updatePurchaseOrder headerOk true insertOk id (some its) db).2 id = its) := by
  cases headerOk with
  | false =>
    refine ⟨?_, ?_, ?_⟩ <;> intro h <;>
      simp [updateInvoice, updateSalesOrder, updatePurchaseOrder] at h
  | true =>
    refine ⟨?_, ?_, ?_⟩
    · intro h
      cases deleteOk with
      | false => simp [updateInvoice] at h
      | true =>
        cases insertOk with
        | false => simp [updateInvoice] at h
        | true =>
          simp only [updateInvoice, Bool.not_true, Bool.false_eq_true, if_false, reduceIte]
          exact itemsForDoc_replace db.order_items id its
    · intro h
      cases hits : its with
      | nil =>
        subst hits
        simp only [updateSalesOrder, Bool.not_true, Bool.false_eq_true, if_false,
          List.length_nil, lt_irrefl, reduceIte]
        have he : itemsForDoc (⟨db.order_items.filter fun r => !decide (r.1 = id)⟩ : OrdersDb α) id
            = ([] : List α) := by
          unfold itemsForDoc
          rw [List.filter_filter]
          simp
        simpa using he
      | cons b bs =>
        cases insertOk with
        | false =>
          subst hits
          simp [updateSalesOrder] at h
        | true =>
          subst hits
          simp only [updateSalesOrder, Bool.not_true, Bool.false_eq_true, if_false,
            List.length_cons, Nat.succ_pos, if_true, reduceIte]
          exact itemsForDoc_replace db.order_items id (b :: bs)
    · intro h
      cases hits : its with
      | nil =>
        subst hits
        simp only [updatePurchaseOrder, Bool.not_true, Bool.false_eq_true, if_false,
          List.length_nil, lt_irrefl, reduceIte]
        have he : itemsForDoc (⟨db.order_items.filter fun r => !decide (r.1 = id)⟩ : OrdersDb α) id
            = ([] : List α) := by
          unfold itemsForDoc
          rw [List.filter_filter]
          simp
        simpa using he
      | cons b bs =>
        cases insertOk with
        | false =>
          subst hits
          simp [updatePurchaseOrder] at h
        | true =>
          subst hits
          simp only [updatePurchaseOrder, Bool.not_true, Bool.false_eq_true, if_false,
            List.length_cons, Nat.succ_pos, if_true, reduceIte]
          exact itemsForDoc_replace db.order_items id (b :: bs)

/-- C7 witness: replacing a 1-item invoice with the list [a, b] on a
fully successful update leaves exactly [a, b] persisted. -/
theorem update_replaces_items_witness :
    ((updateInvoice true true true "D" (some ["a", "b"])
        (⟨[("D", "x")]⟩ : OrdersDb String)).1 = true)
      ∧ itemsForDoc (updateInvoice true true true "D" (some ["a", "b"])
          (⟨[("D", "x")]⟩ : OrdersDb String)).2 "D" = ["a", "b"] :=
  ⟨by decide,
    (update_replaces_items true true true "D" ["a", "b"]
      (⟨[("D", "x")]⟩ : OrdersDb String)).1 (by decide)⟩

/-- C10: when the unchecked delete fails while the header update and the
non-empty replacement insert succeed, both order-update operations
report success and the prior rows remain alongside the inserted ones. -/
theorem order_update_silent_delete_failure {α : Type} (id : String) (b : α) (bs : List α)
    (db : OrdersDb α) :
    updateSalesOrder true false true id (some (b :: bs)) db
        = (true, ⟨db.order_items ++ (b :: bs).map fun x => (id, x)⟩)
      ∧ updatePurchaseOrder true false true id (some (b :: bs)) db
        = (true, ⟨db.order_items ++ (b :: bs).map fun x => (id, x)⟩)
      ∧ itemsForDoc (⟨db.order_items ++ (b :: bs).map fun x => (id, x)⟩ : OrdersDb α) id
        = itemsForDoc db id ++ (b :: bs) := by
  refine ⟨?_, ?_, ?_⟩
  · simp [updateSalesOrder]
  · simp [updatePurchaseOrder]
  · exact itemsForDoc_append db.order_items id (b :: bs)

/-! ## Invoice fetch

Embeds `fetchInvoiceById` from `src/hooks/useInvoices.ts`: fetch the
header with `.single()` (which errors when no row matches), then fetch
the document's items; any error — infrastructure failure of either call
or a missing invoice — is caught and turned into
`{ invoice: null, items: [] }`. -/

/-- Header row of the `invoices` table; `body` stands for the remaining
columns, which the fetch returns verbatim. -/
structure InvoiceHdr where
  id : String
  body : String
deriving Repr, DecidableEq

/-- The tables `fetchInvoiceById` reads. -/
structure InvoicesDb where
  invoices : List InvoiceHdr
  invoice_items : List (String × String)
deriving Repr, DecidableEq

/-- Hook `fetchInvoiceById`: header fetch (failing on infrastructure
error or missing row), then items fetch; every failure path lands in the
catch block, which returns `(none, [])`. -/
def fetchInvoiceById (headerOk itemsOk : Bool) (id : String) (db : InvoicesDb) :
    Option InvoiceHdr × List String :=
  if headerOk then
    match db.invoices.find? (fun v => decide (v.id = id)) with
    | some hdr =>
      if itemsOk then
        (some hdr, (db.invoice_items.filter fun r => decide (r.1 = id)).map Prod.snd)
      else (none, [])
    | none => (none, [])
  else (none, [])

/-- C9: `fetchInvoiceById` never propagates an error — a failed header
fetch, a failed items fetch or a missing invoice each yield
`(none, [])`, and when everything succeeds it returns the stored header
together with the document's item list. -/
theorem fetchInvoiceById_never_throws (headerOk itemsOk : Bool) (id : String)
    (db : InvoicesDb) :
    (headerOk = false → fetchInvoiceById headerOk itemsOk id db = (none, []))
      ∧ (itemsOk = false → fetchInvoiceById headerOk itemsOk id db = (none, []))
      ∧ (db.invoices.find? (fun v => decide (v.id = id)) = none →
          fetchInvoiceById headerOk itemsOk id db = (none, []))
      ∧ (∀ hdr, db.invoices.find? (fun v => decide (v.id = id)) = some hdr →
          headerOk = true → itemsOk = true →
          fetchInvoiceById headerOk itemsOk id db
            = (some hdr, (db.invoice_items.filter fun r => decide (r.1 = id)).map Prod.snd)) := by
  refine ⟨?_, ?_, ?_, ?_⟩
  · intro h
    subst h
    simp [fetchInvoiceById]
  · intro h
    subst h
    cases headerOk with
    | false => simp [fetchInvoiceById]
    | true =>
      simp only [fetchInvoiceById, if_true, reduceIte]
      cases db.invoices.find? (fun v => decide (v.id = id)) <;> simp
  · intro h
    cases headerOk with
    | false => simp [fetchInvoiceById]
    | true => simp [fetchInvoiceById, h]
  · intro hdr hfind h1 h2
    subst h1
    subst h2
    simp [fetchInvoiceById, hfind]

/-- C9 witness: with one stored invoice and one line item, a fully
successful fetch returns the stored header and its single item, and a
fetch of a missing id returns the null/empty pair. -/
theorem fetchInvoiceById_never_throws_witness :
    ((⟨[⟨"i1", "hdr"⟩], [("i1", "item1")]⟩ : InvoicesDb).invoices.find?
          (fun v => decide (v.id = "i1")) = some ⟨"i1", "hdr"⟩
        ∧ fetchInvoiceById true true "i1" ⟨[⟨"i1", "hdr"⟩], [("i1", "item1")]⟩
          = (some ⟨"i1", "hdr"⟩, ["item1"]))
      ∧ fetchInvoiceById true true "missing" ⟨[⟨"i1", "hdr"⟩], [("i1", "item1")]⟩
        = (none, []) :=
  ⟨⟨by decide,
      (fetchInvoiceById_never_throws true true "i1"
        ⟨[⟨"i1", "hdr"⟩], [("i1", "item1")]⟩).2.2.2 ⟨"i1", "hdr"⟩ (by decide) rfl rfl⟩,
    (fetchInvoiceById_never_throws true true "missing"
      ⟨[⟨"i1", "hdr"⟩], [("i1", "item1")]⟩).2.2.1 (by decide)⟩

/-! ## Customer rollup

Embeds the `update_customer_totals` trigger function and the
`update_customer_totals_trigger` (`AFTER INSERT OR UPDATE OR DELETE ON
invoices FOR EACH ROW`) from `unnamed/part_000`.  The trigger recomputes
`total_orders` and `total_spent` over the customer's paid invoices and
`last_order_date` over all of the customer's invoices; on insert and
update it recomputes the customer referenced by the NEW row, on delete
the customer referenced by the OLD row. -/

/-- The `invoice_status` enum. -/
inductive InvoiceStatus where
  | draft
  | sent
  | paid
  | overdue
  | cancelled
deriving Repr, DecidableEq

/-- Row of the `invoices` table, restricted to the columns the rollup
reads; `issue_date` is a day number. -/
structure InvoiceRow where
  id : String
  customer_id : String
  status : InvoiceStatus
  total_amount : ℚ
  issue_date : Nat
deriving Repr, DecidableEq

/-- Row of the `customers` table, restricted to the cached aggregate
columns. -/
structure CustomerRow where
  id : String
  total_orders : Nat
  total_spent : ℚ
  last_order_date : Option Nat
deriving Repr, DecidableEq

/-- The tables the rollup touches. -/
structure CrmDb where
  customers : List CustomerRow
  invoices : List InvoiceRow
deriving Repr, DecidableEq

/-- The customer's invoices with `status = 'paid'` (the filtered
subquery for `total_orders` and `total_spent`). -/
def paidInvoicesOf (cid : String) (invs : List InvoiceRow) : List InvoiceRow :=
  invs.filter fun i => decide (i.customer_id = cid) && decide (i.status = InvoiceStatus.paid)

/-- All of the customer's invoices regardless of status (the subquery
for `last_order_date`). -/
def invoicesOf (cid : String) (invs : List InvoiceRow) : List InvoiceRow :=
  invs.filter fun i => decide (i.customer_id = cid)

/-- SQL `MAX` over a list of dates: `NULL` on the empty set. -/
def sqlMaxDate : List Nat → Option Nat
  | [] => none
  | d :: ds =>
    match sqlMaxDate ds with
    | none => some d
    | some m => some (max d m)

/-- The `COUNT(*)` subquery of the trigger. -/
def rollupTotalOrders (cid : String) (invs : List InvoiceRow) : Nat :=
  (paidInvoicesOf cid invs).length

/-- The `COALESCE(SUM(total_amount), 0)` subquery of the trigger. -/
def rollupTotalSpent (cid : String) (invs : List InvoiceRow) : ℚ :=
  ((paidInvoicesOf cid invs).map fun i => i.total_amount).sum

/-- The `MAX(issue_date)` subquery of the trigger. -/
def rollupLastOrderDate (cid : String) (invs : List InvoiceRow) : Option Nat :=
  sqlMaxDate ((invoicesOf cid invs).map fun i => i.issue_date)

/-- Trigger function `update_customer_totals`, specialised to the
customer id it recomputes: `UPDATE customers SET total_orders = ...,
total_spent = ..., last_order_date = ... WHERE id = cid`. -/
def update_customer_totals (cid : String) (db : CrmDb) : CrmDb :=
  { db with
    customers := db.customers.map fun c =>
      if c.id = cid then
        { c with
          total_orders := rollupTotalOrders cid db.invoices
          total_spent := rollupTotalSpent cid db.invoices
          last_order_date := rollupLastOrderDate cid db.invoices }
      else c }

/-- INSERT on `invoices` followed by the AFTER trigger, which recomputes
the NEW row's customer. -/
def insertInvoiceRow (inv : InvoiceRow) (db : CrmDb) : CrmDb :=
  update_customer_totals inv.customer_id { db with invoices := db.invoices ++ [inv] }

/-- UPDATE on `invoices ... WHERE id = iid` followed by the AFTER
trigger, which recomputes the NEW row's customer; when no row matches,
no trigger fires. -/
def updateInvoiceRow (iid : String) (patch : InvoiceRow → InvoiceRow) (db : CrmDb) : CrmDb :=
  let newInvoices := db.invoices.map fun i => if i.id = iid then patch i else i
  match db.invoices.find? (fun i => decide (i.id = iid)) with
  | some old => update_customer_totals (patch old).customer_id { db with invoices := newInvoices }
  | none => { db with invoices := newInvoices }

/-- DELETE on `invoices ... WHERE id = iid` followed by the AFTER
trigger, which recomputes the OLD row's customer; when no row matches,
no trigger fires. -/
def deleteInvoiceRow (iid : String) (db : CrmDb) : CrmDb :=
  let newInvoices := db.invoices.filter fun i => !decide (i.id = iid)
  match db.invoices.find? (fun i => decide (i.id = iid)) with
  | some old => update_customer_totals old.customer_id { db with invoices := newInvoices }
  | none => { db with invoices := newInvoices }

/-- Every customer's cached aggregates agree with the pure rollup of the
current invoice table. -/
def customerAggregatesConsistent (db : CrmDb) : Prop :=
  ∀ c ∈ db.customers,
    c.total_orders = rollupTotalOrders c.id db.invoices
      ∧ c.total_spent = rollupTotalSpent c.id db.invoices
      ∧ c.last_order_date = rollupLastOrderDate c.id db.invoices

/-- Filtering ignores an appended element the predicate rejects. -/
theorem filter_append_one_eq {α : Type} (p : α → Bool) (l : List α) (a : α)
    (h : p a = false) : (l ++ [a]).filter p = l.filter p := by
  simp [List.filter_append, h]

/-- Filtering ignores a row patch whenever patched and unpatched rows
are both rejected by the predicate. -/
theorem filter_map_patch_eq {α : Type} (p : α → Bool) (q : α → Prop) [DecidablePred q]
    (f : α → α) (l : List α)
    (h : ∀ x ∈ l, q x → p x = false ∧ p (f x) = false) :
    (l.map fun x => if q x then f x else x).filter p = l.filter p := by
  induction l with
  | nil => rfl
  | cons x xs ih =>
    have ih' := ih fun y hy hq => h y (List.mem_cons_of_mem x hy) hq
    by_cases hq : q x
    · obtain ⟨h1, h2⟩ := h x (List.mem_cons_self x xs) hq
      simp [hq, h1, h2, ih']
    · simp only [List.map_cons, if_neg hq, List.filter_cons, ih']

/-- Filtering ignores the removal of rows the predicate rejects. -/
theorem filter_remove_eq {α : Type} (p : α → Bool) (q : α → Prop) [DecidablePred q]
    (l : List α) (h : ∀ x ∈ l, q x → p x = false) :
    (l.filter fun x => !decide (q x)).filter p = l.filter p := by
  induction l with
  | nil => rfl
  | cons x xs ih =>
    have ih' := ih fun y hy hq => h y (List.mem_cons_of_mem x hy) hq
    by_cases hq : q x
    · simp [hq, h x (List.mem_cons_self x xs) hq, ih']
    · have hb : (!decide (q x)) = true := by simp [hq]
      simp only [List.filter_cons, hb, if_true, ih']

/-- The three rollup aggregates of a customer are unchanged by inserting
an invoice of a different customer. -/
theorem rollups_append_ne (cid : String) (invs : List InvoiceRow) (inv : InvoiceRow)
    (h : inv.customer_id ≠ cid) :
    rollupTotalOrders cid (invs ++ [inv]) = rollupTotalOrders cid invs
      ∧ rollupTotalSpent cid (invs ++ [inv]) = rollupTotalSpent cid invs
      ∧ rollupLastOrderDate cid (invs ++ [inv]) = rollupLastOrderDate cid invs := by
  unfold rollupTotalOrders rollupTotalSpent rollupLastOrderDate paidInvoicesOf invoicesOf
  rw [filter_append_one_eq _ _ _ (by simp [h]), filter_append_one_eq _ _ _ (by simp [h])]
  exact ⟨rfl, rfl, rfl⟩

/-- The three rollup aggregates of a customer are unchanged by patching
rows that belong, before and after the patch, to a different customer. -/
theorem rollups_patch_ne (cid iid : String) (patch : InvoiceRow → InvoiceRow)
    (invs : List InvoiceRow)
    (h : ∀ i ∈ invs, i.id = iid → i.customer_id ≠ cid ∧ (patch i).customer_id ≠ cid) :
    rollupTotalOrders cid (invs.map fun i => if i.id = iid then patch i else i)
        = rollupTotalOrders cid invs
      ∧ rollupTotalSpent cid (invs.map fun i => if i.id = iid then patch i else i)
        = rollupTotalSpent cid invs
      ∧ rollupLastOrderDate cid (invs.map fun i => if i.id = iid then patch i else i)
        = rollupLastOrderDate cid invs := by
  unfold rollupTotalOrders rollupTotalSpent rollupLastOrderDate paidInvoicesOf invoicesOf
  rw [filter_map_patch_eq _ _ _ _ fun x hx hq =>
      ⟨by simp [(h x hx hq).1], by simp [(h x hx hq).2]⟩,
    filter_map_patch_eq _ _ _ _ fun x hx hq =>
      ⟨by simp [(h x hx hq).1], by simp [(h x hx hq).2]⟩]
  exact ⟨rfl, rfl, rfl⟩

/-- The three rollup aggregates of a customer are unchanged by removing
rows that belong to a different customer. -/
theorem rollups_remove_ne (cid iid : String) (invs : List InvoiceRow)
    (h : ∀ i ∈ invs, i.id = iid → i.customer_id ≠ cid) :
    rollupTotalOrders cid (invs.filter fun i => !decide (i.id = iid))
        = rollupTotalOrders cid invs
      ∧ rollupTotalSpent cid (invs.filter fun i => !decide (i.id = iid))
        = rollupTotalSpent cid invs
      ∧ rollupLastOrderDate cid (invs.filter fun i => !decide (i.id = iid))
        = rollupLastOrderDate cid invs := by
  unfold rollupTotalOrders rollupTotalSpent rollupLastOrderDate paidInvoicesOf invoicesOf
  rw [filter_remove_eq _ _ _ fun x hx hq => by simp [h x hx hq],
    filter_remove_eq _ _ _ fun x hx hq => by simp [h x hx hq]]
  exact ⟨rfl, rfl, rfl⟩

/-- A list whose mapped ids are duplicate-free has at most one row per
id. -/
theorem unique_row_of_nodup_ids (invs : List InvoiceRow)
    (hids : (invs.map fun i => i.id).Nodup) (old : InvoiceRow) (hmem : old ∈ invs) :
    ∀ i ∈ invs, i.id = old.id → i = old := by
  intro i hi hidq
  exact List.inj_on_of_nodup_map hids hi hmem hidq

/-- Unfolding `insertInvoiceRow`. -/
theorem insertInvoiceRow_eq (inv : InvoiceRow) (db : CrmDb) :
    insertInvoiceRow inv db
      = update_customer_totals inv.customer_id { db with invoices := db.invoices ++ [inv] } :=
  rfl

/-- Unfolding `updateInvoiceRow` when a row matches. -/
theorem updateInvoiceRow_found (iid : String) (patch : InvoiceRow → InvoiceRow) (db : CrmDb)
    (old : InvoiceRow) (hfind : db.invoices.find? (fun i => decide (i.id = iid)) = some old) :
    updateInvoiceRow iid patch db
      = update_customer_totals (patch old).customer_id
          { db with invoices := db.invoices.map fun i => if i.id = iid then patch i else i } := by
  unfold updateInvoiceRow
  rw [hfind]

/-- Unfolding `updateInvoiceRow` when no row matches. -/
theorem updateInvoiceRow_notfound (iid : String) (patch : InvoiceRow → InvoiceRow) (db : CrmDb)
    (hfind : db.invoices.find? (fun i => decide (i.id = iid)) = none) :
    updateInvoiceRow iid patch db
      = { db with invoices := db.invoices.map fun i => if i.id = iid then patch i else i } := by
  unfold updateInvoiceRow
  rw [hfind]

/-- Unfolding `deleteInvoiceRow` when a row matches. -/
theorem deleteInvoiceRow_found (iid : String) (db : CrmDb) (old : InvoiceRow)
    (hfind : db.invoices.find? (fun i => decide (i.id = iid)) = some old) :
    deleteInvoiceRow iid db
      = update_customer_totals old.customer_id
          { db with invoices := db.invoices.filter fun i => !decide (i.id = iid) } := by
  unfold deleteInvoiceRow
  rw [hfind]

/-- Unfolding `deleteInvoiceRow` when no row matches. -/
theorem deleteInvoiceRow_notfound (iid : String) (db : CrmDb)
    (hfind : db.invoices.find? (fun i => decide (i.id = iid)) = none) :
    deleteInvoiceRow iid db
      = { db with invoices := db.invoices.filter fun i => !decide (i.id = iid) } := by
  unfold deleteInvoiceRow
  rw [hfind]

/-- Recomputing customer `k` makes the whole store consistent provided
every other customer's cached aggregates already match the (new) invoice
table. -/
theorem update_customer_totals_consistent (k : String) (db : CrmDb)
    (hothers : ∀ c ∈ db.customers, ¬ c.id = k →
      c.total_orders = rollupTotalOrders c.id db.invoices
        ∧ c.total_spent = rollupTotalSpent c.id db.invoices
        ∧ c.last_order_date = rollupLastOrderDate c.id db.invoices) :
    customerAggregatesConsistent (update_customer_totals k db) := by
  intro c hc
  simp only [update_customer_totals] at hc ⊢
  obtain ⟨c0, hc0, rfl⟩ := List.mem_map.mp hc
  by_cases hid : c0.id = k
  · simp only [if_pos hid]
    refine ⟨?_, ?_, ?_⟩ <;> simp [hid]
  · simp only [if_neg hid]
    exact hothers c0 hc0 hid

/-- C5 counterexample: a consistent store with customers A and B and one
paid invoice of A becomes inconsistent when the invoice is reassigned to
customer B — the trigger recomputes only the NEW row's customer, so A
keeps total_orders = 1 over an invoice set that now has none of its
invoices. -/
theorem customer_rollup_stale_on_reassignment :
    customerAggregatesConsistent
        ⟨[⟨"A", 1, 100, some 1⟩, ⟨"B", 0, 0, none⟩], [⟨"I", "A", InvoiceStatus.paid, 100, 1⟩]⟩
      ∧ ¬ customerAggregatesConsistent
          (updateInvoiceRow "I" (fun i => { i with customer_id := "B" })
            ⟨[⟨"A", 1, 100, some 1⟩, ⟨"B", 0, 0, none⟩],
              [⟨"I", "A", InvoiceStatus.paid, 100, 1⟩]⟩) := by
  constructor
  · intro c hc
    simp only [List.mem_cons, List.not_mem_nil, or_false] at hc
    rcases hc with hc | hc <;> subst hc <;>
      refine ⟨by simp [rollupTotalOrders, paidInvoicesOf], ?_,
        by simp [rollupLastOrderDate, invoicesOf, sqlMaxDate]⟩ <;>
      simp [rollupTotalSpent, paidInvoicesOf]
  · intro h
    have hA := h ⟨"A", 1, 100, some 1⟩ (by
      simp [updateInvoiceRow, update_customer_totals, List.find?])
    have h1 := hA.1
    simp [updateInvoiceRow, update_customer_totals, rollupTotalOrders, paidInvoicesOf,
      List.find?] at h1

/-- C5 amended: starting from any store with duplicate-free invoice ids
whose cached aggregates are consistent, consistency is preserved by
inserting an invoice, by deleting an invoice, and by any invoice update
that does not change which customer the invoice belongs to.  (An update
that reassigns the invoice to a different customer recomputes only the
new customer, so the old customer's aggregates can go stale, as the
counterexample shows.) -/
theorem customer_rollup_preserved (db : CrmDb)
    (hids : (db.invoices.map fun i => i.id).Nodup)
    (hcons : customerAggregatesConsistent db) :
    (∀ inv, customerAggregatesConsistent (insertInvoiceRow inv db))
      ∧ (∀ iid patch, (∀ i, (patch i).customer_id = i.customer_id) →
          customerAggregatesConsistent (updateInvoiceRow iid patch db))
      ∧ (∀ iid, customerAggregatesConsistent (deleteInvoiceRow iid db)) := by
  refine ⟨?_, ?_, ?_⟩
  · -- insert
    intro inv
    rw [insertInvoiceRow_eq inv db]
    apply update_customer_totals_consistent
    intro c hc hne
    obtain ⟨h1, h2, h3⟩ := hcons c hc
    have hne2 : inv.customer_id ≠ c.id := fun hh => hne hh.symm
    obtain ⟨e1, e2, e3⟩ := rollups_append_ne c.id db.invoices inv hne2
    refine ⟨?_, ?_, ?_⟩
    · show c.total_orders = rollupTotalOrders c.id (db.invoices ++ [inv])
      rw [e1]
      exact h1
    · show c.total_spent = rollupTotalSpent c.id (db.invoices ++ [inv])
      rw [e2]
      exact h2
    · show c.last_order_date = rollupLastOrderDate c.id (db.invoices ++ [inv])
      rw [e3]
      exact h3
  · -- update preserving the customer reference
    intro iid patch hpatch
    cases hfind : db.invoices.find? (fun i => decide (i.id = iid)) with
    | none =>
      rw [updateInvoiceRow_notfound iid patch db hfind]
      have hmap : (db.invoices.map fun i => if i.id = iid then patch i else i)
          = db.invoices := by
        have hnone : ∀ i ∈ db.invoices, ¬ i.id = iid := by
          intro i hi
          have := List.find?_eq_none.mp hfind i hi
          simpa using this
        calc (db.invoices.map fun i => if i.id = iid then patch i else i)
            = db.invoices.map id := List.map_congr_left fun i hi => if_neg (hnone i hi)
          _ = db.invoices := List.map_id db.invoices
      rw [hmap]
      exact hcons
    | some old =>
      rw [updateInvoiceRow_found iid patch db old hfind]
      have hold_mem : old ∈ db.invoices := List.mem_of_find?_eq_some hfind
      have hold_id : old.id = iid := by
        have := List.find?_some hfind
        simpa using this
      apply update_customer_totals_consistent
      intro c hc hne
      obtain ⟨h1, h2, h3⟩ := hcons c hc
      have hrows : ∀ i ∈ db.invoices, i.id = iid →
          i.customer_id ≠ c.id ∧ (patch i).customer_id ≠ c.id := by
        intro i hi hiid
        have hio : i = old :=
          unique_row_of_nodup_ids db.invoices hids old hold_mem i hi
            (by rw [hiid, hold_id])
        subst hio
        have hk : (patch i).customer_id = i.customer_id := hpatch i
        constructor
        · intro hcontra
          exact hne (by rw [← hcontra, ← hk])
        · intro hcontra
          exact hne (by rw [← hcontra])
      obtain ⟨e1, e2, e3⟩ := rollups_patch_ne c.id iid patch db.invoices hrows
      refine ⟨?_, ?_, ?_⟩
      · show c.total_orders
            = rollupTotalOrders c.id (db.invoices.map fun i => if i.id = iid then patch i else i)
        rw [e1]
        exact h1
      · show c.total_spent
            = rollupTotalSpent c.id (db.invoices.map fun i => if i.id = iid then patch i else i)
        rw [e2]
        exact h2
      · show c.last_order_date
            = rollupLastOrderDate c.id (db.invoices.map fun i => if i.id = iid then patch i else i)
        rw [e3]
        exact h3
  · -- delete
    intro iid
    cases hfind : db.invoices.find? (fun i => decide (i.id = iid)) with
    | none =>
      rw [deleteInvoiceRow_notfound iid db hfind]
      have hfilter : (db.invoices.filter fun i => !decide (i.id = iid)) = db.invoices := by
        apply List.filter_eq_self.mpr
        intro i hi
        have := List.find?_eq_none.mp hfind i hi
        simpa using this
      rw [hfilter]
      exact hcons
    | some old =>
      rw [deleteInvoiceRow_found iid db old hfind]
      have hold_mem : old ∈ db.invoices := List.mem_of_find?_eq_some hfind
      have hold_id : old.id = iid := by
        have := List.find?_some hfind
        simpa using this
      apply update_customer_totals_consistent
      intro c hc hne
      obtain ⟨h1, h2, h3⟩ := hcons c hc
      have hrows : ∀ i ∈ db.invoices, i.id = iid → i.customer_id ≠ c.id := by
        intro i hi hiid
        have hio : i = old :=
          unique_row_of_nodup_ids db.invoices hids old hold_mem i hi
            (by rw [hiid, hold_id])
        subst hio
        intro hcontra
        exact hne hcontra.symm
      obtain ⟨e1, e2, e3⟩ := rollups_remove_ne c.id iid db.invoices hrows
      refine ⟨?_, ?_, ?_⟩
      · show c.total_orders
            = rollupTotalOrders c.id (db.invoices.filter fun i => !decide (i.id = iid))
        rw [e1]
        exact h1
      · show c.total_spent
            = rollupTotalSpent c.id (db.invoices.filter fun i => !decide (i.id = iid))
        rw [e2]
        exact h2
      · show c.last_order_date
            = rollupLastOrderDate c.id (db.invoices.filter fun i => !decide (i.id = iid))
        rw [e3]
        exact h3

/-- C5 witness: the preservation theorem applied to a concrete
consistent store — inserting a draft invoice for customer B keeps every
cached aggregate equal to its rollup. -/
theorem customer_rollup_preserved_witness :
    ((([⟨"I", "A", InvoiceStatus.paid, 100, 1⟩] : List InvoiceRow).map fun i => i.id).Nodup
        ∧ customerAggregatesConsistent
          ⟨[⟨"A", 1, 100, some 1⟩, ⟨"B", 0, 0, none⟩],
            [⟨"I", "A", InvoiceStatus.paid, 100, 1⟩]⟩)
      ∧ customerAggregatesConsistent
        (insertInvoiceRow ⟨"I2", "B", InvoiceStatus.draft, 50, 2⟩
          ⟨[⟨"A", 1, 100, some 1⟩, ⟨"B", 0, 0, none⟩],
            [⟨"I", "A", InvoiceStatus.paid, 100, 1⟩]⟩) := by
  have hcons : customerAggregatesConsistent
      ⟨[⟨"A", 1, 100, some 1⟩, ⟨"B", 0, 0, none⟩],
        [⟨"I", "A", InvoiceStatus.paid, 100, 1⟩]⟩ := by
    intro c hc
    simp only [List.mem_cons, List.not_mem_nil, or_false] at hc
    rcases hc with hc | hc <;> subst hc <;>
      refine ⟨by simp [rollupTotalOrders, paidInvoicesOf], ?_,
        by simp [rollupLastOrderDate, invoicesOf, sqlMaxDate]⟩ <;>
      simp [rollupTotalSpent, paidInvoicesOf]
  exact ⟨⟨by decide, hcons⟩,
    (customer_rollup_preserved _ (by decide) hcons).1 ⟨"I2", "B", InvoiceStatus.draft, 50, 2⟩⟩

end InvenBill
